import Mathlib

/-!
Shallow embedding of the conversation-and-response polling protocol of the
Dust MCP server repository (`src/api_client.py`, with the configuration
validation from `src/config.py` and the session-state handling from
`src/server.py`).

Network interaction is modelled by an oracle `net : Nat → ...Response`
giving, for each attempt index, the outcome of that attempt's HTTP
request: a transport-level failure (`requests.exceptions.RequestException`,
which also covers `raise_for_status` on error statuses), or a parsed JSON
body restricted to the fields the code actually inspects.  `time.sleep`
calls are counted, and loop iterations are counted, so that claims about
"no sleeping" and "no further attempts" are expressible.
-/

namespace DustSpec

/-- A conversation message as inspected by `get_agent_message`
(api_client.py): each field mirrors a `dict.get` access on the JSON
object.  `sId` is the message id, `created` and `rank` the ordering keys,
`authorType` the nested `author.type` field, and `mtype` the top-level
`type` field. -/
structure Message where
  sId : Option String
  created : Option Int
  rank : Option Int
  authorType : Option String
  mtype : Option String
deriving Repr, DecidableEq

/-- api_client.py lines 306-310: a message counts as assistant-authored
when `author.type` is "assistant" or its `type` is "assistant_message"
or "agent_message". -/
def isAssistant (m : Message) : Bool :=
  m.authorType == some "assistant" || m.mtype == some "assistant_message" ||
    m.mtype == some "agent_message"

/-- Body shape of a get-conversation response as discriminated by
api_client.py lines 256-275: a `conversation.content` array whose items
are either arrays of messages or direct message objects, a flat
`messages` array, or neither expected key. -/
inductive LocBody where
  | conversationContent (arrays : List (List Message ⊕ Message))
  | messagesArr (msgs : List Message)
  | unexpectedShape
deriving Repr, DecidableEq

/-- One attempt's outcome for the locator's GET request: a
`RequestException`, a non-200 status (api_client.py line 245), or a
parsed 200 body. -/
inductive LocResponse where
  | transport (e : String)
  | httpError
  | ok (body : LocBody)

/-- api_client.py lines 259-266: flatten the `conversation.content`
array, expanding items that are arrays and keeping direct message
objects. -/
def flattenContent : List (List Message ⊕ Message) → List Message
  | [] => []
  | Sum.inl arr :: rest => arr ++ flattenContent rest
  | Sum.inr m :: rest => m :: flattenContent rest

/-- The `new_messages` extracted from a 200 body (api_client.py lines
255-275); `none` for the unexpected-shape branch, which continues the
loop. -/
def newMessagesOf : LocBody → Option (List Message)
  | .conversationContent arrays => some (flattenContent arrays)
  | .messagesArr msgs => some msgs
  | .unexpectedShape => none

/-- Body of the merge loop (api_client.py lines 278-281): append `msg`
when its `sId` is truthy (present and nonempty) and not already carried
by a stored message. -/
def mergeStep (acc : List Message) (msg : Message) : List Message :=
  match msg.sId with
  | some s =>
    if s != "" && !(acc.any (fun m => m.sId == some s)) then acc ++ [msg] else acc
  | none => acc

/-- api_client.py lines 277-281: fold the new page into the store. -/
def mergeMessages (store newMessages : List Message) : List Message :=
  newMessages.foldl mergeStep store

/-- Comparison key `m.get("created", 0)` (api_client.py line 287). -/
def createdLe (a b : Message) : Bool :=
  decide (a.created.getD 0 ≤ b.created.getD 0)

/-- Comparison key `m.get("rank", 0)` (api_client.py line 289). -/
def rankLe (a b : Message) : Bool :=
  decide (a.rank.getD 0 ≤ b.rank.getD 0)

/-- Insert `a` into `l` before the first element not below it; keeps a
later-processed element after earlier equal-key elements. -/
def orderedInsertLe (le : Message → Message → Bool) (a : Message) : List Message → List Message
  | [] => [a]
  | b :: l => if le a b then a :: b :: l else b :: orderedInsertLe le a l

/-- A stable insertion sort.  Python's `sorted` is a stable sort, and any
two stable sorts under the same key agree on every input, so this is the
exact function computed at api_client.py lines 285-289. -/
def insertionSortLe (le : Message → Message → Bool) : List Message → List Message
  | [] => []
  | a :: l => orderedInsertLe le a (insertionSortLe le l)

/-- api_client.py lines 285-289: stable-sort the store by `created` when
the first stored message carries that key, else by `rank` when it
carries that one, else leave the store as is. -/
def sortStore : List Message → List Message
  | [] => []
  | m0 :: rest =>
    if m0.created.isSome then insertionSortLe createdLe (m0 :: rest)
    else if m0.rank.isSome then insertionSortLe rankLe (m0 :: rest)
    else m0 :: rest

/-- One attempt's update of `messages_store`: merge the new page, then
sort (api_client.py lines 277-289). -/
def locatorIngest (store newMessages : List Message) : List Message :=
  sortStore (mergeMessages store newMessages)

/-- api_client.py lines 296-315: scan the sorted store, carrying the
`user_message_found` flag; an entry matching `user_message_id` while the
flag is unset sets the flag and is skipped; once the flag is set, the
first assistant-authored entry is returned (as its `sId` field).  The
result pairs the updated flag with the returned id, when any. -/
def scanStore (uid : String) : Bool → List Message → Bool × Option (Option String)
  | found, [] => (found, none)
  | found, m :: rest =>
    if !found && m.sId == some uid then scanStore uid true rest
    else if found && isAssistant m then (found, some m.sId)
    else scanStore uid found rest

/-- The `(success, value, error)` triple every stage returns: `ok v`
models `(True, v, None)` and `err msg` models
`(False, None, {"error": msg})` with `msg` the error text. -/
inductive PyResult where
  | ok (value : Option String)
  | err (message : String)
deriving Repr, DecidableEq

/-- A polling run's outcome, instrumented with the number of
`time.sleep` calls executed and the number of loop iterations entered. -/
structure RunOut where
  result : PyResult
  sleeps : Nat
  attempts : Nat
deriving Repr, DecidableEq

/-- The locator's cross-attempt mutable state: `messages_store` and the
`user_message_found` flag (api_client.py lines 220-221), both living
outside the retry loop. -/
structure LocState where
  store : List Message
  found : Bool
deriving Repr, DecidableEq

/-- The retry loop of `get_agent_message` (api_client.py lines 223-331):
a transport error or a non-200 status sleeps and retries; an
unexpected-shape 200 body continues without sleeping; otherwise the page
is ingested into the store and the store scanned, returning the found id
or sleeping and retrying.  Exhausting the budget yields the Step 3
timeout error (lines 333-336). -/
def locLoop (net : Nat → LocResponse) (uid : String) (maxRetries : Nat) :
    Nat → Nat → LocState → Nat → RunOut
  | attempt, 0, _, sleeps =>
    ⟨.err ("Step 3: No agent message found after " ++ toString maxRetries ++ " attempts"),
      sleeps, attempt⟩
  | attempt, fuel + 1, st, sleeps =>
    match net attempt with
    | .transport _ => locLoop net uid maxRetries (attempt + 1) fuel st (sleeps + 1)
    | .httpError => locLoop net uid maxRetries (attempt + 1) fuel st (sleeps + 1)
    | .ok body =>
      match newMessagesOf body with
      | none => locLoop net uid maxRetries (attempt + 1) fuel st sleeps
      | some newMsgs =>
        match scanStore uid st.found (locatorIngest st.store newMsgs) with
        | (_, some r) => ⟨.ok r, sleeps, attempt + 1⟩
        | (found, none) =>
          locLoop net uid maxRetries (attempt + 1) fuel
            ⟨locatorIngest st.store newMsgs, found⟩ (sleeps + 1)

/-- `get_agent_message` (api_client.py lines 193-336): run the locator
loop from an empty store and an unset flag. -/
def get_agent_message (net : Nat → LocResponse) (uid : String) (maxRetries : Nat) : RunOut :=
  locLoop net uid maxRetries 0 maxRetries ⟨[], false⟩ 0

/-- `m` occurs in one of the message pages the oracle delivers: every
entry of the locator's accumulated store is such a message, since the
store only ever grows by merging fetched pages. -/
def deliveredBy (net : Nat → LocResponse) (m : Message) : Prop :=
  ∃ k body page, net k = .ok body ∧ newMessagesOf body = some page ∧ m ∈ page

/-- The `contentBlock` object of an event, as inspected at
api_client.py line 383. -/
structure ContentBlock where
  content : Option String
deriving Repr, DecidableEq

/-- An event of the agent-message event stream: the optional
`contentBlock` object and the optional `type` field. -/
structure Event where
  contentBlock : Option ContentBlock
  etype : Option String
deriving Repr, DecidableEq

/-- Body shape of an events response (api_client.py lines 367-376): an
`events` array, or an unexpected shape carrying its JSON dump. -/
inductive AggBody where
  | events (evs : List Event)
  | unexpected (dump : String)
deriving Repr, DecidableEq

/-- One attempt's outcome for the aggregator's GET request. -/
inductive AggResponse where
  | transport (e : String)
  | ok (body : AggBody)

/-- The content fragment carried by an event, when the event has a
`contentBlock` with a `content` field (api_client.py lines 382-384). -/
def fragmentOf (e : Event) : Option String :=
  e.contentBlock.bind ContentBlock.content

/-- The `generation-complete` marker test (api_client.py line 387). -/
def isGenComplete (e : Event) : Bool :=
  e.etype == some "generation-complete"

/-- Body of the event loop (api_client.py lines 381-388): append the
event's content fragment, if any, and record a completion marker. -/
def aggStep (acc : Bool × List String) (event : Event) : Bool × List String :=
  let fullContent :=
    match event.contentBlock with
    | some cb =>
      match cb.content with
      | some c => acc.2 ++ [c]
      | none => acc.2
    | none => acc.2
  let completed := if event.etype == some "generation-complete" then true else acc.1
  (completed, fullContent)

/-- api_client.py lines 378-388: one pass over the fetched events,
appending each `contentBlock.content` fragment in arrival order and
recording whether a `generation-complete` marker was seen. -/
def aggScan (evs : List Event) : Bool × List String :=
  evs.foldl aggStep (false, [])

/-- The retry loop of `get_agent_response` (api_client.py lines
357-405): a transport error or an unexpected-shape body returns a Step 4
failure immediately; a scanned event list with the completion marker
returns the newline-join of its fragments; otherwise the loop sleeps one
unit and retries.  Exhausting the budget yields the Step 4 timeout error
(lines 407-411). -/
def aggLoop (net : Nat → AggResponse) (maxRetries : Nat) : Nat → Nat → Nat → RunOut
  | attempt, 0, sleeps =>
    ⟨.err ("Step 4: Timed out waiting for a response after " ++ toString maxRetries ++
      " attempts"), sleeps, attempt⟩
  | attempt, fuel + 1, sleeps =>
    match net attempt with
    | .transport e => ⟨.err ("Step 4: Request error: " ++ e), sleeps, attempt + 1⟩
    | .ok (.unexpected dump) =>
      ⟨.err ("Step 4: Unexpected response format: " ++ dump), sleeps, attempt + 1⟩
    | .ok (.events evs) =>
      if (aggScan evs).1 then
        ⟨.ok (some (String.intercalate "\n" (aggScan evs).2)), sleeps, attempt + 1⟩
      else aggLoop net maxRetries (attempt + 1) fuel (sleeps + 1)

/-- `get_agent_response` (api_client.py lines 338-411). -/
def get_agent_response (net : Nat → AggResponse) (maxRetries : Nat) : RunOut :=
  aggLoop net maxRetries 0 maxRetries 0

/-- Outcome of the single create-conversation POST (api_client.py lines
98-124): a `RequestException`, or a parsed body carrying the nested
`conversation.sId` when present, together with its JSON dump for the
error message. -/
inductive CreateResponse where
  | transport (e : String)
  | ok (conversationSId : Option String) (dump : String)

/-- `create_conversation` (api_client.py lines 74-124): a single
request, no retry loop. -/
def create_conversation : CreateResponse → PyResult
  | .transport e => .err ("Step 1: Failed to create conversation: " ++ e)
  | .ok (some cid) _ => .ok (some cid)
  | .ok none dump => .err ("Step 1: Unexpected response format: " ++ dump)

/-- Outcome of the single send-message POST (api_client.py lines
166-191): a `RequestException`, or a parsed body carrying the nested
`message.sId` when present. -/
inductive SendResponse where
  | transport (e : String)
  | ok (messageSId : Option String)

/-- `send_message` (api_client.py lines 126-191): a single request, no
retry loop. -/
def send_message : SendResponse → PyResult
  | .transport e => .err ("Step 2: Failed to send message: " ++ e)
  | .ok (some mid) => .ok (some mid)
  | .ok none => .err "Step 2: Could not find message ID in response"

/-- `DustAgentConfig.validate` (config.py lines 38-54), over the three
checked fields; the empty string models a falsy value.  The function is
pure: it performs no network request. -/
def validate (apiKey workspaceId agentId : String) : Bool × String :=
  if apiKey == "" || apiKey == "store SECRETS in .env file" then
    (false, "Missing DUST_API_KEY environment variable")
  else if workspaceId == "" then
    (false, "Missing DUST_WORKSPACE_ID environment variable")
  else if agentId == "" then
    (false, "Missing DUST_AGENT_ID environment variable")
  else (true, "")

/-- Truthiness of an `os.getenv` result as used by `all([...])` and
`not CONVERSATION_ID` in server.py: `None` and the empty string are
falsy. -/
def truthyEnv : Option String → Bool
  | none => false
  | some s => s != ""

/-- server.py lines 80-89: the environment presence check at the top of
`dust_systems_thinking`, yielding the error message when a required
variable is missing. -/
def dustToolEnvGate (apiKey workspaceId agentId : Option String) : Option String :=
  if !(truthyEnv apiKey && truthyEnv workspaceId && truthyEnv agentId) then
    some "Missing required environment variables: DUST_API_KEY, DUST_WORKSPACE_ID, or DUST_AGENT_ID"
  else none

/-- Control-flow skeleton of `dust_systems_thinking` (server.py lines
79-89) around the environment check: `rest` stands for the remainder of
the tool body (server.py line 91 onward, where every HTTP request of the
tool is issued), given as its result paired with the number of HTTP
requests it performs.  The check at lines 86-89 runs before any of
`rest`, so a failed check returns its error having performed zero
requests. -/
def dust_systems_thinking_gate (apiKey workspaceId agentId : Option String)
    (rest : PyResult × Nat) : PyResult × Nat :=
  match dustToolEnvGate apiKey workspaceId agentId with
  | some msg => (.err msg, 0)
  | none => rest

/-- The process-wide conversation state: `CONVERSATION_ID` and
`LAST_MESSAGE_ID` (server.py lines 37-38), mirrored by
`conversation_id` and `last_message_id` (config.py lines 34-36). -/
structure Session where
  conversationId : Option String
  lastMessageId : Option String
deriving Repr, DecidableEq

/-- Both state variables are initialized to `None` at process start
(server.py lines 37-38, config.py lines 34-36). -/
def initialSession : Session := ⟨none, none⟩

/-- Effect of one `dust_systems_thinking` call on the global session
state.  `CONVERSATION_ID` is assigned only at server.py line 124, inside
the branch entered when `new_conversation or not CONVERSATION_ID` holds
(line 101); `createOutcome` is the conversation `sId` extracted from a
successful create response, `none` when the create step fails (the call
then returns early with the global untouched).  `LAST_MESSAGE_ID` is
never assigned after its initialization at server.py line 38 (nor is
`config.last_message_id` after config.py line 36), so that field is
unchanged by every call. -/
def dustToolSessionStep (st : Session) (newConversation : Bool)
    (createOutcome : Option String) : Session :=
  if newConversation || !truthyEnv st.conversationId then
    match createOutcome with
    | some cid => { st with conversationId := some cid }
    | none => st
  else st

/-! Lemmas about the aggregator's event scan. -/

theorem aggStep_eq (b : Bool) (acc : List String) (e : Event) :
    aggStep (b, acc) e = (isGenComplete e || b, acc ++ (fragmentOf e).toList) := by
  rcases hcb : e.contentBlock with _ | cb
  · cases hg : e.etype == some "generation-complete" <;> cases b <;>
      simp [aggStep, isGenComplete, fragmentOf, hcb, hg]
  · rcases hc : cb.content with _ | c <;>
      cases hg : e.etype == some "generation-complete" <;> cases b <;>
        simp [aggStep, isGenComplete, fragmentOf, hcb, hc, hg]

theorem aggScan_go (evs : List Event) : ∀ (b : Bool) (acc : List String),
    evs.foldl aggStep (b, acc) =
      (b || evs.any isGenComplete, acc ++ evs.filterMap fragmentOf) := by
  induction evs with
  | nil => intro b acc; simp
  | cons e evs ih =>
    intro b acc
    rw [List.foldl_cons, aggStep_eq, ih]
    rcases hf : fragmentOf e with _ | c <;>
      cases b <;> cases hg : isGenComplete e <;>
        simp [List.filterMap_cons, hf, hg]

theorem aggScan_eq (evs : List Event) :
    aggScan evs = (evs.any isGenComplete, evs.filterMap fragmentOf) := by
  simpa [aggScan] using aggScan_go evs false []

/-- An attempt whose fetched events carry the completion marker returns
the newline-join of that attempt's fragments. -/
theorem aggLoop_return (net : Nat → AggResponse) (maxRetries attempt fuel sleeps : Nat)
    (evs : List Event) (hnet : net attempt = .ok (.events evs))
    (hc : (aggScan evs).1 = true) :
    aggLoop net maxRetries attempt (fuel + 1) sleeps =
      ⟨.ok (some (String.intercalate "\n" (aggScan evs).2)), sleeps, attempt + 1⟩ := by
  simp [aggLoop, hnet, hc]

/-- Soundness of a successful aggregator loop run: the value is the
newline-join of the fragments of the returning attempt's events, and the
completion marker was scanned there. -/
theorem aggLoop_ok_sound (net : Nat → AggResponse) (maxRetries : Nat) :
    ∀ (fuel attempt sleeps : Nat) (v : Option String) (sl at' : Nat),
    aggLoop net maxRetries attempt fuel sleeps = ⟨.ok v, sl, at'⟩ →
    ∃ k evs, attempt ≤ k ∧ net k = .ok (.events evs) ∧ at' = k + 1 ∧
      (aggScan evs).1 = true ∧
      v = some (String.intercalate "\n" (aggScan evs).2) := by
  intro fuel
  induction fuel with
  | zero =>
    intro attempt sleeps v sl at' h
    simp [aggLoop] at h
  | succ n ih =>
    intro attempt sleeps v sl at' h
    rcases hnet : net attempt with e | body
    · simp [aggLoop, hnet] at h
    · rcases body with evs | dump
      · by_cases hc : (aggScan evs).1 = true
        · simp [aggLoop, hnet, hc] at h
          exact ⟨attempt, evs, Nat.le_refl _, hnet, h.2.2.symm, hc, h.1.symm⟩
        · simp only [aggLoop, hnet] at h
          rw [if_neg hc] at h
          obtain ⟨k, evs', hk, hn, hat, hs, hv⟩ := ih (attempt + 1) (sleeps + 1) v sl at' h
          exact ⟨k, evs', Nat.le_of_succ_le hk, hn, hat, hs, hv⟩
      · simp [aggLoop, hnet] at h

/-- Claim C3: whenever the aggregator returns Success(s), a
generation-complete marker was observed among the events fetched in the
returning attempt, and s is the newline-join, in arrival order, of the
`contentBlock.content` fragments of that attempt's events. -/
theorem aggregator_success_characterization (net : Nat → AggResponse)
    (maxRetries : Nat) (s : String)
    (h : (get_agent_response net maxRetries).result = .ok (some s)) :
    ∃ k evs, net k = .ok (.events evs) ∧
      (get_agent_response net maxRetries).attempts = k + 1 ∧
      evs.any isGenComplete = true ∧
      s = String.intercalate "\n" (evs.filterMap fragmentOf) := by
  rcases hrun : get_agent_response net maxRetries with ⟨res, sl, at'⟩
  rw [hrun] at h
  simp only at h
  subst h
  have hloop : aggLoop net maxRetries 0 maxRetries 0 = ⟨.ok (some s), sl, at'⟩ := hrun
  obtain ⟨k, evs, _, hn, hat, hc, hv⟩ :=
    aggLoop_ok_sound net maxRetries maxRetries 0 0 (some s) sl at' hloop
  refine ⟨k, evs, hn, by simp [hat], ?_, ?_⟩
  · have := aggScan_eq evs
    rw [this] at hc
    exact hc
  · have heq := aggScan_eq evs
    have : (aggScan evs).2 = evs.filterMap fragmentOf := by rw [heq]
    rw [this] at hv
    exact Option.some.inj hv

/-- Claim C3 witness: the aggregator over events carrying fragments
"Hello" and " world" plus a completion marker returns
"Hello\n world", and the characterization applies to it. -/
theorem aggregator_success_characterization_witness :
    ∃ k evs,
      (fun _ : Nat => AggResponse.ok (.events
        [⟨some ⟨some "Hello"⟩, none⟩, ⟨some ⟨some " world"⟩, none⟩,
         ⟨none, some "generation-complete"⟩])) k = .ok (.events evs) ∧
      (get_agent_response
        (fun _ : Nat => AggResponse.ok (.events
          [⟨some ⟨some "Hello"⟩, none⟩, ⟨some ⟨some " world"⟩, none⟩,
           ⟨none, some "generation-complete"⟩])) 30).attempts = k + 1 ∧
      evs.any isGenComplete = true ∧
      "Hello\n world" = String.intercalate "\n" (evs.filterMap fragmentOf) :=
  aggregator_success_characterization
    (fun _ : Nat => AggResponse.ok (.events
      [⟨some ⟨some "Hello"⟩, none⟩, ⟨some ⟨some " world"⟩, none⟩,
       ⟨none, some "generation-complete"⟩])) 30 "Hello\n world" (by decide)

/-- Claim C10: an aggregator attempt whose fetched events contain a
generation-complete marker but no content fragment returns Success with
the empty string, at any attempt position and in particular on a run's
first attempt. -/
theorem aggregator_empty_content_success :
    (∀ (net : Nat → AggResponse) (maxRetries attempt fuel sleeps : Nat) (evs : List Event),
      net attempt = .ok (.events evs) →
      evs.any isGenComplete = true →
      (∀ e ∈ evs, fragmentOf e = none) →
      aggLoop net maxRetries attempt (fuel + 1) sleeps = ⟨.ok (some ""), sleeps, attempt + 1⟩) ∧
    (∀ (net : Nat → AggResponse) (maxRetries : Nat) (evs : List Event),
      0 < maxRetries →
      net 0 = .ok (.events evs) →
      evs.any isGenComplete = true →
      (∀ e ∈ evs, fragmentOf e = none) →
      get_agent_response net maxRetries = ⟨.ok (some ""), 0, 1⟩) := by
  have base : ∀ (net : Nat → AggResponse) (maxRetries attempt fuel sleeps : Nat)
      (evs : List Event),
      net attempt = .ok (.events evs) →
      evs.any isGenComplete = true →
      (∀ e ∈ evs, fragmentOf e = none) →
      aggLoop net maxRetries attempt (fuel + 1) sleeps =
        ⟨.ok (some ""), sleeps, attempt + 1⟩ := by
    intro net maxR attempt fuel sleeps evs hnet hany hfr
    have hc : (aggScan evs).1 = true := by rw [aggScan_eq]; exact hany
    have h2 : (aggScan evs).2 = [] := by
      rw [aggScan_eq]
      exact List.filterMap_eq_nil_iff.mpr hfr
    rw [aggLoop_return net maxR attempt fuel sleeps evs hnet hc, h2]
    rfl
  refine ⟨base, ?_⟩
  intro net maxR evs hpos hnet hany hfr
  obtain ⟨n, rfl⟩ : ∃ n, maxR = n + 1 :=
    ⟨maxR - 1, (Nat.succ_pred_eq_of_pos hpos).symm⟩
  exact base net (n + 1) 0 n 0 evs hnet hany hfr

/-- Claim C10 witness: a single event list holding only the completion
marker yields Success("") on the first attempt. -/
theorem aggregator_empty_content_success_witness :
    get_agent_response
      (fun _ : Nat => AggResponse.ok (.events [⟨none, some "generation-complete"⟩])) 30 =
      ⟨.ok (some ""), 0, 1⟩ :=
  aggregator_empty_content_success.2
    (fun _ : Nat => AggResponse.ok (.events [⟨none, some "generation-complete"⟩]))
    30 [⟨none, some "generation-complete"⟩] (by decide) rfl (by decide) (by decide)

/-! Lemmas about the locator loop. -/

/-- The only failure the locator loop can produce is the Step 3 timeout
message, emitted after the remaining budget is exhausted. -/
theorem locLoop_err_sound (net : Nat → LocResponse) (uid : String) (maxRetries : Nat) :
    ∀ (fuel attempt : Nat) (st : LocState) (sleeps : Nat) (msg : String),
    (locLoop net uid maxRetries attempt fuel st sleeps).result = .err msg →
    msg = "Step 3: No agent message found after " ++ toString maxRetries ++ " attempts" ∧
    (locLoop net uid maxRetries attempt fuel st sleeps).attempts = attempt + fuel := by
  intro fuel
  induction fuel with
  | zero =>
    intro attempt st sleeps msg h
    simp only [locLoop] at h ⊢
    exact ⟨(PyResult.err.inj h).symm, rfl⟩
  | succ n ih =>
    intro attempt st sleeps msg h
    rcases hnet : net attempt with e | _ | body
    · simp only [locLoop, hnet] at h ⊢
      obtain ⟨hm, hat⟩ := ih (attempt + 1) st (sleeps + 1) msg h
      exact ⟨hm, by omega⟩
    · simp only [locLoop, hnet] at h ⊢
      obtain ⟨hm, hat⟩ := ih (attempt + 1) st (sleeps + 1) msg h
      exact ⟨hm, by omega⟩
    · rcases hb : newMessagesOf body with _ | newMsgs
      · simp only [locLoop, hnet, hb] at h ⊢
        obtain ⟨hm, hat⟩ := ih (attempt + 1) st sleeps msg h
        exact ⟨hm, by omega⟩
      · rcases hs : scanStore uid st.found (locatorIngest st.store newMsgs) with ⟨f, o⟩
        rcases o with _ | r
        · simp only [locLoop, hnet, hb, hs] at h ⊢
          obtain ⟨hm, hat⟩ := ih (attempt + 1) ⟨locatorIngest st.store newMsgs, f⟩ (sleeps + 1) msg h
          exact ⟨hm, by omega⟩
        · simp [locLoop, hnet, hb, hs] at h

/-- With a net whose every attempt yields well-shaped events without the
completion marker, the aggregator loop runs its whole budget down and
times out. -/
theorem aggLoop_never_complete (net : Nat → AggResponse) (maxRetries : Nat)
    (h : ∀ k, ∃ evs, net k = .ok (.events evs) ∧ (aggScan evs).1 = false) :
    ∀ (fuel attempt sleeps : Nat),
    aggLoop net maxRetries attempt fuel sleeps =
      ⟨.err ("Step 4: Timed out waiting for a response after " ++ toString maxRetries ++
        " attempts"), sleeps + fuel, attempt + fuel⟩ := by
  intro fuel
  induction fuel with
  | zero => intro attempt sleeps; simp [aggLoop]
  | succ n ih =>
    intro attempt sleeps
    obtain ⟨evs, hnet, hc⟩ := h attempt
    simp only [aggLoop, hnet]
    rw [if_neg (by simp [hc])]
    rw [ih (attempt + 1) (sleeps + 1)]
    congr 1 <;> omega

/-- Claim C6: a locator or aggregator run whose termination condition is
never satisfied returns Failure after the bounded retry count, with the
failure message containing the configured retry count. -/
theorem retry_exhaustion_failure :
    (∀ (net : Nat → LocResponse) (uid : String) (maxRetries : Nat) (msg : String),
      (get_agent_message net uid maxRetries).result = .err msg →
      (∃ pre post, msg = pre ++ toString maxRetries ++ post) ∧
      (get_agent_message net uid maxRetries).attempts = maxRetries) ∧
    (∀ (net : Nat → AggResponse) (maxRetries : Nat),
      (∀ k, ∃ evs, net k = .ok (.events evs) ∧ (aggScan evs).1 = false) →
      (∃ pre post,
        (get_agent_response net maxRetries).result = .err (pre ++ toString maxRetries ++ post)) ∧
      (get_agent_response net maxRetries).attempts = maxRetries) := by
  constructor
  · intro net uid maxRetries msg h
    obtain ⟨hm, hat⟩ := locLoop_err_sound net uid maxRetries maxRetries 0 ⟨[], false⟩ 0 msg h
    refine ⟨⟨"Step 3: No agent message found after ", " attempts", hm⟩, ?_⟩
    simpa using hat
  · intro net maxRetries h
    have := aggLoop_never_complete net maxRetries h maxRetries 0 0
    constructor
    · exact ⟨"Step 4: Timed out waiting for a response after ", " attempts",
        by rw [get_agent_response, this]⟩
    · rw [get_agent_response, this]
      simp

/-- Claim C6 witness: with a locator net always answering a non-200
status and an aggregator net always answering an empty event list, both
runs with budget 2 fail with a message containing "2". -/
theorem retry_exhaustion_failure_witness :
    ((∃ pre post,
        ("Step 3: No agent message found after 2 attempts" : String) =
          pre ++ toString 2 ++ post) ∧
      (get_agent_message (fun _ : Nat => LocResponse.httpError) "U" 2).attempts = 2) ∧
    ((∃ pre post,
        (get_agent_response (fun _ : Nat => AggResponse.ok (.events [])) 2).result =
          .err (pre ++ toString 2 ++ post)) ∧
      (get_agent_response (fun _ : Nat => AggResponse.ok (.events [])) 2).attempts = 2) :=
  ⟨retry_exhaustion_failure.1 (fun _ : Nat => LocResponse.httpError) "U" 2
      "Step 3: No agent message found after 2 attempts" (by decide),
    retry_exhaustion_failure.2 (fun _ : Nat => AggResponse.ok (.events [])) 2
      (fun _ => ⟨[], rfl, rfl⟩)⟩

/-- Claim C4: a transport error is fatal without retry in the Initiator,
the Sender and the Aggregator (which returns the Step 4 request error on
the very attempt that hit it), while the Locator loop continues with an
extra sleep and the same state — the transport error is retried within
the attempt budget. -/
theorem transport_error_retry_asymmetry :
    (∀ e, create_conversation (.transport e) =
      .err ("Step 1: Failed to create conversation: " ++ e)) ∧
    (∀ e, send_message (.transport e) = .err ("Step 2: Failed to send message: " ++ e)) ∧
    (∀ (net : Nat → AggResponse) (maxRetries attempt fuel sleeps : Nat) (e : String),
      net attempt = .transport e →
      aggLoop net maxRetries attempt (fuel + 1) sleeps =
        ⟨.err ("Step 4: Request error: " ++ e), sleeps, attempt + 1⟩) ∧
    (∀ (net : Nat → LocResponse) (uid : String) (maxRetries attempt fuel sleeps : Nat)
      (st : LocState) (e : String),
      net attempt = .transport e →
      locLoop net uid maxRetries attempt (fuel + 1) st sleeps =
        locLoop net uid maxRetries (attempt + 1) fuel st (sleeps + 1)) := by
  refine ⟨fun e => rfl, fun e => rfl, ?_, ?_⟩
  · intro net maxRetries attempt fuel sleeps e hnet
    simp [aggLoop, hnet]
  · intro net uid maxRetries attempt fuel sleeps st e hnet
    simp [locLoop, hnet]

/-- Claim C4 witness: at concrete transport errors, the three
non-locator stages fail immediately while the locator continues (and,
with a well-formed second page, still succeeds on its second attempt). -/
theorem transport_error_retry_asymmetry_witness :
    create_conversation (.transport "boom") =
      .err ("Step 1: Failed to create conversation: " ++ "boom") ∧
    send_message (.transport "boom") = .err ("Step 2: Failed to send message: " ++ "boom") ∧
    aggLoop (fun _ : Nat => AggResponse.transport "boom") 30 0 (29 + 1) 0 =
      ⟨.err ("Step 4: Request error: " ++ "boom"), 0, 1⟩ ∧
    locLoop (fun _ : Nat => LocResponse.transport "boom") "U" 30 0 (29 + 1) ⟨[], false⟩ 0 =
      locLoop (fun _ : Nat => LocResponse.transport "boom") "U" 30 1 29 ⟨[], false⟩ 1 ∧
    get_agent_message
      (fun k => if k = 0 then LocResponse.transport "boom"
        else .ok (.messagesArr
          [⟨some "U", some 1, none, some "user", some "user_message"⟩,
           ⟨some "A", some 2, none, some "assistant", some "agent_message"⟩])) "U" 2 =
      ⟨.ok (some "A"), 1, 2⟩ :=
  ⟨transport_error_retry_asymmetry.1 "boom",
    transport_error_retry_asymmetry.2.1 "boom",
    transport_error_retry_asymmetry.2.2.1 (fun _ : Nat => AggResponse.transport "boom")
      30 0 29 0 "boom" rfl,
    transport_error_retry_asymmetry.2.2.2 (fun _ : Nat => LocResponse.transport "boom")
      "U" 30 0 29 0 ⟨[], false⟩ "boom" rfl,
    by decide⟩

/-- Claim C1 counterexample: a locator run whose first attempt answers
with an unexpected shape does not fail — it continues, and with a
well-shaped second page it returns Success on attempt 2, refuting
"returns Failure immediately and performs no further attempts ... in
every stage including the Locator". -/
theorem shape_error_policy_counterexample :
    get_agent_message
      (fun k => if k = 0 then LocResponse.ok .unexpectedShape
        else .ok (.messagesArr
          [⟨some "U", some 1, none, some "user", some "user_message"⟩,
           ⟨some "A", some 2, none, some "assistant", some "agent_message"⟩])) "U" 2 =
      ⟨.ok (some "A"), 0, 2⟩ := by decide

/-- Claim C1 as amended: an unexpected-shape response is immediately
fatal without retry in the Initiator, the Sender and the Aggregator, but
in the Locator it is skipped and the attempt loop continues (without
even sleeping), so the shape error is effectively retried there. -/
theorem shape_error_policy :
    (∀ dump, create_conversation (.ok none dump) =
      .err ("Step 1: Unexpected response format: " ++ dump)) ∧
    (send_message (.ok none) = .err "Step 2: Could not find message ID in response") ∧
    (∀ (net : Nat → AggResponse) (maxRetries attempt fuel sleeps : Nat) (dump : String),
      net attempt = .ok (.unexpected dump) →
      aggLoop net maxRetries attempt (fuel + 1) sleeps =
        ⟨.err ("Step 4: Unexpected response format: " ++ dump), sleeps, attempt + 1⟩) ∧
    (∀ (net : Nat → LocResponse) (uid : String) (maxRetries attempt fuel sleeps : Nat)
      (st : LocState),
      net attempt = .ok .unexpectedShape →
      locLoop net uid maxRetries attempt (fuel + 1) st sleeps =
        locLoop net uid maxRetries (attempt + 1) fuel st sleeps) := by
  refine ⟨fun dump => rfl, rfl, ?_, ?_⟩
  · intro net maxRetries attempt fuel sleeps dump hnet
    simp [aggLoop, hnet]
  · intro net uid maxRetries attempt fuel sleeps st hnet
    simp [locLoop, hnet, newMessagesOf]

/-- Claim C1 (amended) witness: concrete shape errors at each stage. -/
theorem shape_error_policy_witness :
    create_conversation (.ok none "dump") =
      .err ("Step 1: Unexpected response format: " ++ "dump") ∧
    send_message (.ok none) = .err "Step 2: Could not find message ID in response" ∧
    aggLoop (fun _ : Nat => AggResponse.ok (.unexpected "dump")) 30 0 (29 + 1) 0 =
      ⟨.err ("Step 4: Unexpected response format: " ++ "dump"), 0, 1⟩ ∧
    locLoop (fun _ : Nat => LocResponse.ok .unexpectedShape) "U" 30 0 (29 + 1) ⟨[], false⟩ 0 =
      locLoop (fun _ : Nat => LocResponse.ok .unexpectedShape) "U" 30 1 29 ⟨[], false⟩ 0 :=
  ⟨shape_error_policy.1 "dump",
    shape_error_policy.2.1,
    shape_error_policy.2.2.1 (fun _ : Nat => AggResponse.ok (.unexpected "dump"))
      30 0 29 0 "dump" rfl,
    shape_error_policy.2.2.2 (fun _ : Nat => LocResponse.ok .unexpectedShape)
      "U" 30 0 29 0 ⟨[], false⟩ rfl⟩

/-! Lemmas about the store scan. -/

/-- Any id returned by the scan is the `sId` of an assistant-authored
entry of the scanned store. -/
theorem scanStore_mem (uid : String) :
    ∀ (l : List Message) (b f : Bool) (r : Option String),
    scanStore uid b l = (f, some r) →
    ∃ m ∈ l, isAssistant m = true ∧ r = m.sId := by
  intro l
  induction l with
  | nil => intro b f r h; simp [scanStore] at h
  | cons m rest ih =>
    intro b f r h
    simp only [scanStore] at h
    by_cases h1 : (!b && m.sId == some uid) = true
    · rw [if_pos h1] at h
      obtain ⟨m', hm', hA, hr⟩ := ih true f r h
      exact ⟨m', List.mem_cons_of_mem m hm', hA, hr⟩
    · rw [if_neg h1] at h
      by_cases h2 : (b && isAssistant m) = true
      · rw [if_pos h2] at h
        have hr : some m.sId = some r := (Prod.mk.injEq _ _ _ _ ▸ h).2
        exact ⟨m, List.mem_cons_self m rest,
          (Bool.and_eq_true _ _ ▸ h2).2, (Option.some.inj hr).symm⟩
      · rw [if_neg h2] at h
        obtain ⟨m', hm', hA, hr⟩ := ih b f r h
        exact ⟨m', List.mem_cons_of_mem m hm', hA, hr⟩

/-- With the flag already set, a returned id is the `sId` of an
assistant entry at some position of the store. -/
theorem scanStore_true_sound (uid : String) :
    ∀ (l : List Message) (f : Bool) (r : Option String),
    scanStore uid true l = (f, some r) →
    ∃ j, ∃ hj : j < l.length, isAssistant (l.get ⟨j, hj⟩) = true ∧
      r = (l.get ⟨j, hj⟩).sId := by
  intro l
  induction l with
  | nil => intro f r h; simp [scanStore] at h
  | cons m rest ih =>
    intro f r h
    simp only [scanStore, Bool.not_true, Bool.false_and, Bool.true_and] at h
    rw [if_neg (by simp)] at h
    by_cases h2 : isAssistant m = true
    · rw [if_pos h2] at h
      have hr : some m.sId = some r := (Prod.mk.injEq _ _ _ _ ▸ h).2
      exact ⟨0, Nat.succ_pos _, h2, (Option.some.inj hr).symm⟩
    · rw [if_neg h2] at h
      obtain ⟨j, hj, hA, hr⟩ := ih f r h
      exact ⟨j + 1, Nat.succ_lt_succ hj, by simpa using hA, by simpa using hr⟩

/-- With the flag initially unset, a returned id is the `sId` of an
assistant entry positioned strictly after an entry matching the user
message id. -/
theorem scanStore_false_sound (uid : String) :
    ∀ (l : List Message) (f : Bool) (r : Option String),
    scanStore uid false l = (f, some r) →
    ∃ i j, ∃ hi : i < l.length, ∃ hj : j < l.length, i < j ∧
      (l.get ⟨i, hi⟩).sId = some uid ∧ isAssistant (l.get ⟨j, hj⟩) = true ∧
      r = (l.get ⟨j, hj⟩).sId := by
  intro l
  induction l with
  | nil => intro f r h; simp [scanStore] at h
  | cons m rest ih =>
    intro f r h
    simp only [scanStore, Bool.not_false, Bool.true_and, Bool.false_and] at h
    by_cases h1 : (m.sId == some uid) = true
    · rw [if_pos h1] at h
      obtain ⟨j, hj, hA, hr⟩ := scanStore_true_sound uid rest f r h
      exact ⟨0, j + 1, Nat.succ_pos _, Nat.succ_lt_succ hj, Nat.succ_pos _,
        by simpa using h1, by simpa using hA, by simpa using hr⟩
    · rw [if_neg h1, if_neg (by simp)] at h
      obtain ⟨i, j, hi, hj, hij, hu, hA, hr⟩ := ih f r h
      exact ⟨i + 1, j + 1, Nat.succ_lt_succ hi, Nat.succ_lt_succ hj,
        Nat.succ_lt_succ hij, by simpa using hu, by simpa using hA, by simpa using hr⟩

/-- With the flag already set, the scan returns as soon as the store
holds an assistant entry. -/
theorem scanStore_true_complete (uid : String) :
    ∀ (l : List Message),
    (∃ j, ∃ hj : j < l.length, isAssistant (l.get ⟨j, hj⟩) = true) →
    ∃ f r, scanStore uid true l = (f, some r) := by
  intro l
  induction l with
  | nil => rintro ⟨j, hj, _⟩; exact absurd hj (Nat.not_lt_zero j)
  | cons m rest ih =>
    rintro ⟨j, hj, hA⟩
    by_cases h2 : isAssistant m = true
    · exact ⟨true, m.sId, by simp [scanStore, h2]⟩
    · rcases j with _ | j'
      · exact absurd hA h2
      · obtain ⟨f, r, hr⟩ := ih ⟨j', Nat.lt_of_succ_lt_succ hj, by simpa using hA⟩
        exact ⟨f, r, by simp [scanStore, h2, hr]⟩

/-- With the flag initially unset, the scan returns whenever the store
holds a user-id entry followed, strictly later, by an assistant entry. -/
theorem scanStore_false_complete (uid : String) :
    ∀ (l : List Message),
    (∃ i j, ∃ hi : i < l.length, ∃ hj : j < l.length, i < j ∧
      (l.get ⟨i, hi⟩).sId = some uid ∧ isAssistant (l.get ⟨j, hj⟩) = true) →
    ∃ f r, scanStore uid false l = (f, some r) := by
  intro l
  induction l with
  | nil => rintro ⟨i, j, hi, _⟩; exact absurd hi (Nat.not_lt_zero i)
  | cons m rest ih =>
    rintro ⟨i, j, hi, hj, hij, hu, hA⟩
    by_cases h1 : (m.sId == some uid) = true
    · rcases j with _ | j'
      · exact absurd hij (Nat.not_lt_zero i)
      · obtain ⟨f, r, hr⟩ := scanStore_true_complete uid rest
          ⟨j', Nat.lt_of_succ_lt_succ hj, by simpa using hA⟩
        exact ⟨f, r, by simp [scanStore, h1, hr]⟩
    · rcases i with _ | i'
      · exact absurd (by simpa using hu) (by simpa using h1)
      · rcases j with _ | j'
        · exact absurd hij (by omega)
        · obtain ⟨f, r, hr⟩ := ih ⟨i', j', Nat.lt_of_succ_lt_succ hi,
            Nat.lt_of_succ_lt_succ hj, Nat.lt_of_succ_lt_succ hij,
            by simpa using hu, by simpa using hA⟩
          exact ⟨f, r, by simp [scanStore, h1, hr]⟩

/-- Claim C7: when the first fetch's page, once ingested (deduplicated
and ordered) into the store, contains an agent-authored entry strictly
after the entry matching `user_message_id`, the locator returns that
agent entry's id as Success on the first attempt, with zero sleeps. -/
theorem locator_first_attempt_success (net : Nat → LocResponse) (uid : String)
    (maxRetries : Nat) (body : LocBody) (page : List Message)
    (hpos : 0 < maxRetries) (hnet : net 0 = .ok body)
    (hpage : newMessagesOf body = some page)
    (hfind : ∃ i j, ∃ hi : i < (locatorIngest [] page).length,
      ∃ hj : j < (locatorIngest [] page).length, i < j ∧
      ((locatorIngest [] page).get ⟨i, hi⟩).sId = some uid ∧
      isAssistant ((locatorIngest [] page).get ⟨j, hj⟩) = true) :
    ∃ r, get_agent_message net uid maxRetries = ⟨.ok r, 0, 1⟩ ∧
      ∃ i j, ∃ hi : i < (locatorIngest [] page).length,
        ∃ hj : j < (locatorIngest [] page).length, i < j ∧
        ((locatorIngest [] page).get ⟨i, hi⟩).sId = some uid ∧
        isAssistant ((locatorIngest [] page).get ⟨j, hj⟩) = true ∧
        r = ((locatorIngest [] page).get ⟨j, hj⟩).sId := by
  obtain ⟨n, rfl⟩ : ∃ n, maxRetries = n + 1 :=
    ⟨maxRetries - 1, (Nat.succ_pred_eq_of_pos hpos).symm⟩
  obtain ⟨f, r, hscan⟩ := scanStore_false_complete uid (locatorIngest [] page) hfind
  refine ⟨r, ?_, scanStore_false_sound uid _ f r hscan⟩
  rw [get_agent_message]
  simp [locLoop, hnet, hpage, hscan]

/-- Claim C7 witness: a first fetch already holding the user message
"U" followed by the agent message "A" yields Success on attempt 1 with
no sleep. -/
theorem locator_first_attempt_success_witness :
    ∃ r, get_agent_message
        (fun _ : Nat => LocResponse.ok (.messagesArr
          [⟨some "U", some 1, none, some "user", some "user_message"⟩,
           ⟨some "A", some 2, none, some "assistant", some "agent_message"⟩]))
        "U" 30 = ⟨.ok r, 0, 1⟩ ∧
      ∃ i j, ∃ hi : i < (locatorIngest []
          [⟨some "U", some 1, none, some "user", some "user_message"⟩,
           ⟨some "A", some 2, none, some "assistant", some "agent_message"⟩]).length,
        ∃ hj : j < (locatorIngest []
          [⟨some "U", some 1, none, some "user", some "user_message"⟩,
           ⟨some "A", some 2, none, some "assistant", some "agent_message"⟩]).length,
        i < j ∧
        ((locatorIngest []
          [⟨some "U", some 1, none, some "user", some "user_message"⟩,
           ⟨some "A", some 2, none, some "assistant", some "agent_message"⟩]).get
            ⟨i, hi⟩).sId = some "U" ∧
        isAssistant ((locatorIngest []
          [⟨some "U", some 1, none, some "user", some "user_message"⟩,
           ⟨some "A", some 2, none, some "assistant", some "agent_message"⟩]).get
            ⟨j, hj⟩) = true ∧
        r = ((locatorIngest []
          [⟨some "U", some 1, none, some "user", some "user_message"⟩,
           ⟨some "A", some 2, none, some "assistant", some "agent_message"⟩]).get
            ⟨j, hj⟩).sId :=
  locator_first_attempt_success
    (fun _ : Nat => LocResponse.ok (.messagesArr
      [⟨some "U", some 1, none, some "user", some "user_message"⟩,
       ⟨some "A", some 2, none, some "assistant", some "agent_message"⟩]))
    "U" 30
    (.messagesArr
      [⟨some "U", some 1, none, some "user", some "user_message"⟩,
       ⟨some "A", some 2, none, some "assistant", some "agent_message"⟩])
    [⟨some "U", some 1, none, some "user", some "user_message"⟩,
     ⟨some "A", some 2, none, some "assistant", some "agent_message"⟩]
    (by decide) rfl rfl
    ⟨0, 1, by decide, by decide, by decide, by decide, by decide⟩

/-! Lemmas about the merge and the sort. -/

theorem mergeStep_none (acc : List Message) (msg : Message) (h : msg.sId = none) :
    mergeStep acc msg = acc := by
  simp [mergeStep, h]

theorem mergeStep_some_true (acc : List Message) (msg : Message) (s : String)
    (h : msg.sId = some s)
    (hg : (s != "" && !(acc.any (fun m => m.sId == some s))) = true) :
    mergeStep acc msg = acc ++ [msg] := by
  simp only [mergeStep, h]
  rw [if_pos hg]

theorem mergeStep_some_false (acc : List Message) (msg : Message) (s : String)
    (h : msg.sId = some s)
    (hg : ¬(s != "" && !(acc.any (fun m => m.sId == some s))) = true) :
    mergeStep acc msg = acc := by
  simp only [mergeStep, h]
  rw [if_neg hg]

theorem mergeStep_cases (acc : List Message) (msg : Message) :
    mergeStep acc msg = acc ∨ mergeStep acc msg = acc ++ [msg] := by
  rcases h : msg.sId with _ | s
  · exact Or.inl (mergeStep_none acc msg h)
  · by_cases hg : (s != "" && !(acc.any (fun m => m.sId == some s))) = true
    · exact Or.inr (mergeStep_some_true acc msg s h hg)
    · exact Or.inl (mergeStep_some_false acc msg s h hg)

theorem mergeMessages_append :
    ∀ (new store : List Message), ∃ tail, mergeMessages store new = store ++ tail := by
  intro new
  induction new with
  | nil => intro store; exact ⟨[], by simp [mergeMessages]⟩
  | cons x xs ih =>
    intro store
    have hstep : mergeMessages store (x :: xs) = mergeMessages (mergeStep store x) xs := rfl
    obtain ⟨t, ht⟩ := ih (mergeStep store x)
    rcases mergeStep_cases store x with hc | hc
    · exact ⟨t, by rw [hstep, ht, hc]⟩
    · exact ⟨[x] ++ t, by rw [hstep, ht, hc]; simp⟩

theorem mem_mergeMessages_of_mem_store {m : Message} (store new : List Message)
    (h : m ∈ store) : m ∈ mergeMessages store new := by
  obtain ⟨t, ht⟩ := mergeMessages_append new store
  rw [ht]
  exact List.mem_append_left t h

theorem mergeMessages_mem {m : Message} :
    ∀ (new store : List Message), m ∈ mergeMessages store new → m ∈ store ∨ m ∈ new := by
  intro new
  induction new with
  | nil => intro store h; exact Or.inl h
  | cons x xs ih =>
    intro store h
    rcases ih (mergeStep store x) h with hm | hm
    · rcases mergeStep_cases store x with hc | hc
      · exact Or.inl (hc ▸ hm)
      · rcases List.mem_append.mp (hc ▸ hm) with h1 | h1
        · exact Or.inl h1
        · have : m = x := List.mem_singleton.mp h1
          exact Or.inr (this ▸ List.mem_cons_self x xs)
    · exact Or.inr (List.mem_cons_of_mem x hm)

theorem mergeMessages_id_complete {s : String} :
    ∀ (new store : List Message) (m : Message), m ∈ new → m.sId = some s → s ≠ "" →
    ∃ m' ∈ mergeMessages store new, m'.sId = some s := by
  intro new
  induction new with
  | nil => intro store m hm; exact absurd hm (List.not_mem_nil m)
  | cons x xs ih =>
    intro store m hm hid hns
    rcases List.mem_cons.mp hm with rfl | hm'
    · by_cases hg : (s != "" && !(store.any (fun m' => m'.sId == some s))) = true
      · have hx : m ∈ mergeStep store m := by
          rw [mergeStep_some_true store m s hid hg]
          exact List.mem_append_right store (List.mem_singleton.mpr rfl)
        exact ⟨m, mem_mergeMessages_of_mem_store (mergeStep store m) xs hx, hid⟩
      · have hsne : (s != "") = true := by simpa using hns
        have hany : store.any (fun m' => m'.sId == some s) = true := by
          cases hany2 : store.any (fun m' => m'.sId == some s) with
          | false => exact absurd (by simp [hsne, hany2]) hg
          | true => rfl
        obtain ⟨m', hm', hid'⟩ := List.any_eq_true.mp hany
        have hm'' : m' ∈ mergeStep store m := by
          rcases mergeStep_cases store m with hc | hc
          · rw [hc]; exact hm'
          · rw [hc]; exact List.mem_append_left _ hm'
        exact ⟨m', mem_mergeMessages_of_mem_store (mergeStep store m) xs hm'',
          by simpa using hid'⟩
    · exact ih (mergeStep store x) m hm' hid hns

theorem mergeMessages_nodup :
    ∀ (new store : List Message), (store.map Message.sId).Nodup →
    ((mergeMessages store new).map Message.sId).Nodup := by
  intro new
  induction new with
  | nil => intro store h; exact h
  | cons x xs ih =>
    intro store h
    refine ih (mergeStep store x) ?_
    rcases hid : x.sId with _ | s
    · rw [mergeStep_none store x hid]; exact h
    · by_cases hg : (s != "" && !(store.any (fun m => m.sId == some s))) = true
      · rw [mergeStep_some_true store x s hid hg]
        rw [List.map_append, List.nodup_append]
        refine ⟨h, by simp, ?_⟩
        intro a ha hb
        have hax : a = some s := by simpa [hid] using hb
        have hnone : store.any (fun m => m.sId == some s) = false := by
          have h2 := (Bool.and_eq_true _ _ ▸ hg)
          simpa using h2.2
        obtain ⟨m', hm', hval⟩ := List.mem_map.mp ha
        have hne : ¬(m'.sId == some s) = true := by
          intro hc
          have h3 : store.any (fun m => m.sId == some s) = true := by
            rw [List.any_eq_true]
            exact ⟨m', hm', hc⟩
          rw [hnone] at h3
          exact Bool.false_ne_true h3
        exact hne (by simp [hval, hax])
      · rw [mergeStep_some_false store x s hid hg]; exact h

theorem orderedInsertLe_perm (le : Message → Message → Bool) (a : Message) :
    ∀ l, (orderedInsertLe le a l).Perm (a :: l) := by
  intro l
  induction l with
  | nil => exact List.Perm.refl _
  | cons b l ih =>
    unfold orderedInsertLe
    by_cases hab : le a b = true
    · rw [if_pos hab]
    · rw [if_neg hab]
      exact (ih.cons b).trans (List.Perm.swap a b l)

theorem insertionSortLe_perm (le : Message → Message → Bool) :
    ∀ l, (insertionSortLe le l).Perm l := by
  intro l
  induction l with
  | nil => exact List.Perm.refl _
  | cons a l ih =>
    exact (orderedInsertLe_perm le a (insertionSortLe le l)).trans (ih.cons a)

theorem orderedInsertLe_pairwise (le : Message → Message → Bool)
    (htot : ∀ a b, le a b = true ∨ le b a = true)
    (htrans : ∀ a b c, le a b = true → le b c = true → le a c = true) (a : Message) :
    ∀ l, l.Pairwise (fun x y => le x y = true) →
    (orderedInsertLe le a l).Pairwise (fun x y => le x y = true) := by
  intro l
  induction l with
  | nil => intro _; simp [orderedInsertLe]
  | cons b l ih =>
    intro hp
    rw [List.pairwise_cons] at hp
    unfold orderedInsertLe
    by_cases hab : le a b = true
    · rw [if_pos hab]
      rw [List.pairwise_cons]
      refine ⟨?_, List.pairwise_cons.mpr hp⟩
      intro x hx
      rcases List.mem_cons.mp hx with rfl | hx'
      · exact hab
      · exact htrans a b x hab (hp.1 x hx')
    · rw [if_neg hab]
      rw [List.pairwise_cons]
      refine ⟨?_, ih hp.2⟩
      intro x hx
      have hx' := (orderedInsertLe_perm le a l).mem_iff.mp hx
      rcases List.mem_cons.mp hx' with rfl | hx''
      · rcases htot x b with h | h
        · exact absurd h hab
        · exact h
      · exact hp.1 x hx''

theorem insertionSortLe_pairwise (le : Message → Message → Bool)
    (htot : ∀ a b, le a b = true ∨ le b a = true)
    (htrans : ∀ a b c, le a b = true → le b c = true → le a c = true) :
    ∀ l, (insertionSortLe le l).Pairwise (fun x y => le x y = true) := by
  intro l
  induction l with
  | nil => simp [insertionSortLe]
  | cons a l ih =>
    exact orderedInsertLe_pairwise le htot htrans a (insertionSortLe le l) ih

theorem sortStore_perm : ∀ store, (sortStore store).Perm store := by
  intro store
  rcases store with _ | ⟨m0, rest⟩
  · exact List.Perm.refl _
  · simp only [sortStore]
    by_cases h1 : m0.created.isSome = true
    · rw [if_pos h1]; exact insertionSortLe_perm createdLe (m0 :: rest)
    · rw [if_neg h1]
      by_cases h2 : m0.rank.isSome = true
      · rw [if_pos h2]; exact insertionSortLe_perm rankLe (m0 :: rest)
      · rw [if_neg h2]

theorem sortStore_sorted_created (m0 : Message) (rest : List Message)
    (h : m0.created.isSome = true) :
    (sortStore (m0 :: rest)).Pairwise (fun a b => a.created.getD 0 ≤ b.created.getD 0) := by
  have := insertionSortLe_pairwise createdLe
    (fun a b => by
      unfold createdLe
      rcases Int.le_total (a.created.getD 0) (b.created.getD 0) with h | h
      · exact Or.inl (by simpa using h)
      · exact Or.inr (by simpa using h))
    (fun a b c hab hbc => by
      unfold createdLe at *
      simp only [decide_eq_true_eq] at *
      omega)
    (m0 :: rest)
  simp only [sortStore]
  rw [if_pos h]
  exact this.imp (by intro a b hab; simpa [createdLe] using hab)

theorem sortStore_sorted_rank (m0 : Message) (rest : List Message)
    (h0 : m0.created.isSome = false) (h : m0.rank.isSome = true) :
    (sortStore (m0 :: rest)).Pairwise (fun a b => a.rank.getD 0 ≤ b.rank.getD 0) := by
  have := insertionSortLe_pairwise rankLe
    (fun a b => by
      unfold rankLe
      rcases Int.le_total (a.rank.getD 0) (b.rank.getD 0) with h | h
      · exact Or.inl (by simpa using h)
      · exact Or.inr (by simpa using h))
    (fun a b c hab hbc => by
      unfold rankLe at *
      simp only [decide_eq_true_eq] at *
      omega)
    (m0 :: rest)
  simp only [sortStore]
  rw [if_neg (by simp [h0]), if_pos h]
  exact this.imp (by intro a b hab; simpa [rankLe] using hab)

theorem locatorIngest_mem {m : Message} (store new : List Message)
    (h : m ∈ locatorIngest store new) : m ∈ store ∨ m ∈ new := by
  have := (sortStore_perm (mergeMessages store new)).mem_iff.mp h
  exact mergeMessages_mem new store this

theorem locatorIngest_mem_of_store {m : Message} (store new : List Message)
    (h : m ∈ store) : m ∈ locatorIngest store new :=
  (sortStore_perm (mergeMessages store new)).mem_iff.mpr
    (mem_mergeMessages_of_mem_store store new h)

theorem locatorIngest_nodup (store new : List Message)
    (h : (store.map Message.sId).Nodup) :
    ((locatorIngest store new).map Message.sId).Nodup :=
  (((sortStore_perm (mergeMessages store new)).map Message.sId).symm).nodup
    (mergeMessages_nodup new store h)

theorem locatorIngest_id_complete {s : String} (store new : List Message) (m : Message)
    (hm : m ∈ new) (hid : m.sId = some s) (hns : s ≠ "") :
    ∃ m' ∈ locatorIngest store new, m'.sId = some s := by
  obtain ⟨m', hm', hid'⟩ := mergeMessages_id_complete new store m hm hid hns
  exact ⟨m', (sortStore_perm (mergeMessages store new)).mem_iff.mpr hm', hid'⟩

/-- A successful locator loop run returns the `sId` of an
assistant-authored entry of the scanned store; provided every stored
message came from a delivered page, so does the returned entry. -/
theorem locLoop_ok_assistant (net : Nat → LocResponse) (uid : String) (maxRetries : Nat) :
    ∀ (fuel attempt : Nat) (st : LocState) (sleeps : Nat) (r : Option String) (sl at' : Nat),
    (∀ m ∈ st.store, deliveredBy net m) →
    locLoop net uid maxRetries attempt fuel st sleeps = ⟨.ok r, sl, at'⟩ →
    ∃ m, isAssistant m = true ∧ r = m.sId ∧ deliveredBy net m := by
  intro fuel
  induction fuel with
  | zero =>
    intro attempt st sleeps r sl at' hinv h
    simp [locLoop] at h
  | succ n ih =>
    intro attempt st sleeps r sl at' hinv h
    rcases hnet : net attempt with e | _ | body
    · simp only [locLoop, hnet] at h
      exact ih (attempt + 1) st (sleeps + 1) r sl at' hinv h
    · simp only [locLoop, hnet] at h
      exact ih (attempt + 1) st (sleeps + 1) r sl at' hinv h
    · rcases hb : newMessagesOf body with _ | newMsgs
      · simp only [locLoop, hnet, hb] at h
        exact ih (attempt + 1) st sleeps r sl at' hinv h
      · have hinv' : ∀ m ∈ locatorIngest st.store newMsgs, deliveredBy net m := by
          intro m hm
          rcases locatorIngest_mem st.store newMsgs hm with h1 | h1
          · exact hinv m h1
          · exact ⟨attempt, body, newMsgs, hnet, hb, h1⟩
        rcases hs : scanStore uid st.found (locatorIngest st.store newMsgs) with ⟨f, o⟩
        rcases o with _ | r'
        · simp only [locLoop, hnet, hb, hs] at h
          exact ih (attempt + 1) ⟨locatorIngest st.store newMsgs, f⟩ (sleeps + 1) r sl at' hinv' h
        · simp only [locLoop, hnet, hb, hs, RunOut.mk.injEq, PyResult.ok.injEq] at h
          obtain ⟨m, hm, hA, hr⟩ := scanStore_mem uid _ st.found f r' hs
          exact ⟨m, hA, h.1 ▸ hr, hinv' m hm⟩

/-- Claim C2 counterexample: with every page equal to
`[{sId: "U", created: 1, type: "agent_message"}]` and
`user_message_id = "U"`, the locator returns Success("U") — an id equal
to the user message id — because the `user_message_found` flag set in
attempt 1 persists into attempt 2, whose scan then treats the same entry
as a later assistant message. -/
theorem locator_after_user_counterexample :
    get_agent_message
      (fun _ : Nat => LocResponse.ok (.messagesArr
        [⟨some "U", some 1, none, none, some "agent_message"⟩])) "U" 2 =
      ⟨.ok (some "U"), 1, 2⟩ := by decide

/-- Claim C2 as amended: a locator Success(id) always carries the `sId`
of an assistant-authored entry (by the code's author test) that occurs
in one of the fetched message pages — an entry of the accumulated
store — and whenever the returning scan starts with the
`user_message_found` flag unset — in particular whenever the user entry
is first found in the returning attempt — the returned entry lies
strictly after the entry matching `user_message_id` in the accumulated
ordered store and, when the store's ids are duplicate-free, the id
differs from `user_message_id`.  (When the flag was set in an earlier
attempt the scan can return an entry positioned before, or even equal
to, the user entry, as the counterexample shows.) -/
theorem locator_success_id_properties :
    (∀ (net : Nat → LocResponse) (uid : String) (maxRetries : Nat) (r : Option String),
      (get_agent_message net uid maxRetries).result = .ok r →
      ∃ m, isAssistant m = true ∧ r = m.sId ∧ deliveredBy net m) ∧
    (∀ (uid : String) (l : List Message) (f : Bool) (r : Option String),
      (l.map Message.sId).Nodup →
      scanStore uid false l = (f, some r) →
      r ≠ some uid ∧
      ∃ i j, ∃ hi : i < l.length, ∃ hj : j < l.length, i < j ∧
        (l.get ⟨i, hi⟩).sId = some uid ∧ isAssistant (l.get ⟨j, hj⟩) = true ∧
        r = (l.get ⟨j, hj⟩).sId) := by
  constructor
  · intro net uid maxRetries r h
    rcases hrun : get_agent_message net uid maxRetries with ⟨res, sl, at'⟩
    rw [hrun] at h
    simp only at h
    subst h
    exact locLoop_ok_assistant net uid maxRetries maxRetries 0 ⟨[], false⟩ 0 r sl at'
      (by intro m hm; exact absurd hm (List.not_mem_nil m)) hrun
  · intro uid l f r hnd h
    obtain ⟨i, j, hi, hj, hij, hu, hA, hr⟩ := scanStore_false_sound uid l f r h
    refine ⟨?_, i, j, hi, hj, hij, hu, hA, hr⟩
    intro hequ
    have hmi : (l.map Message.sId).get ⟨i, by simpa using hi⟩ = some uid := by
      simpa [List.get_map] using hu
    have hmj : (l.map Message.sId).get ⟨j, by simpa using hj⟩ = some uid := by
      have : (l.get ⟨j, hj⟩).sId = some uid := hr ▸ hequ
      simpa [List.get_map] using this
    have := hnd.get_inj_iff.mp (hmi.trans hmj.symm)
    have : i = j := Fin.mk.inj_iff.mp this
    omega

/-- Claim C2 (amended) witness: on the store
`[user "U" at 1, agent "A" at 2]` (duplicate-free ids) the scan from an
unset flag returns "A", which differs from "U" and sits strictly after
the user entry; and the corresponding locator run's Success value is the
id of an assistant entry occurring in a delivered page. -/
theorem locator_success_id_properties_witness :
    (∃ m, isAssistant m = true ∧ (some "A" : Option String) = m.sId ∧
      deliveredBy
        (fun _ : Nat => LocResponse.ok (.messagesArr
          [⟨some "U", some 1, none, some "user", some "user_message"⟩,
           ⟨some "A", some 2, none, some "assistant", some "agent_message"⟩])) m) ∧
    ((some "A" : Option String) ≠ some "U" ∧
      ∃ i j, ∃ hi : i < ([⟨some "U", some 1, none, some "user", some "user_message"⟩,
          ⟨some "A", some 2, none, some "assistant", some "agent_message"⟩] :
            List Message).length,
        ∃ hj : j < ([⟨some "U", some 1, none, some "user", some "user_message"⟩,
          ⟨some "A", some 2, none, some "assistant", some "agent_message"⟩] :
            List Message).length, i < j ∧
        (([⟨some "U", some 1, none, some "user", some "user_message"⟩,
          ⟨some "A", some 2, none, some "assistant", some "agent_message"⟩] :
            List Message).get ⟨i, hi⟩).sId = some "U" ∧
        isAssistant (([⟨some "U", some 1, none, some "user", some "user_message"⟩,
          ⟨some "A", some 2, none, some "assistant", some "agent_message"⟩] :
            List Message).get ⟨j, hj⟩) = true ∧
        (some "A" : Option String) =
          (([⟨some "U", some 1, none, some "user", some "user_message"⟩,
            ⟨some "A", some 2, none, some "assistant", some "agent_message"⟩] :
              List Message).get ⟨j, hj⟩).sId) :=
  ⟨locator_success_id_properties.1
      (fun _ : Nat => LocResponse.ok (.messagesArr
        [⟨some "U", some 1, none, some "user", some "user_message"⟩,
         ⟨some "A", some 2, none, some "assistant", some "agent_message"⟩]))
      "U" 30 (some "A") (by decide),
    locator_success_id_properties.2 "U"
      [⟨some "U", some 1, none, some "user", some "user_message"⟩,
       ⟨some "A", some 2, none, some "assistant", some "agent_message"⟩]
      true (some "A") (by decide) (by decide)⟩

/-- Claim C5: ingesting two (possibly overlapping) pages across two
locator attempts yields an accumulated store that is unique by `sId`,
consists exactly of messages of the two pages with every page id
represented (the union by id), loses nothing from the first attempt's
store, and is ordered by the available key — creation time when present,
rank as the fallback. -/
theorem locator_store_union_properties (p1 p2 : List Message)
    (hs : ∀ m ∈ p1 ++ p2, ∃ s, m.sId = some s ∧ s ≠ "") :
    ((locatorIngest (locatorIngest [] p1) p2).map Message.sId).Nodup ∧
    (∀ m ∈ locatorIngest (locatorIngest [] p1) p2, m ∈ p1 ++ p2) ∧
    (∀ s, (∃ m ∈ p1 ++ p2, m.sId = some s) →
      ∃ m' ∈ locatorIngest (locatorIngest [] p1) p2, m'.sId = some s) ∧
    (∀ m ∈ locatorIngest [] p1, m ∈ locatorIngest (locatorIngest [] p1) p2) ∧
    ((∀ m ∈ p1 ++ p2, m.created.isSome = true) →
      (locatorIngest (locatorIngest [] p1) p2).Pairwise
        (fun a b => a.created.getD 0 ≤ b.created.getD 0)) ∧
    ((∀ m ∈ p1 ++ p2, m.created = none) → (∀ m ∈ p1 ++ p2, m.rank.isSome = true) →
      (locatorIngest (locatorIngest [] p1) p2).Pairwise
        (fun a b => a.rank.getD 0 ≤ b.rank.getD 0)) := by
  have hmem1 : ∀ m ∈ locatorIngest [] p1, m ∈ p1 ++ p2 := by
    intro m hm
    rcases locatorIngest_mem [] p1 hm with h | h
    · exact absurd h (List.not_mem_nil m)
    · exact List.mem_append_left p2 h
  have hmem2 : ∀ m ∈ locatorIngest (locatorIngest [] p1) p2, m ∈ p1 ++ p2 := by
    intro m hm
    rcases locatorIngest_mem (locatorIngest [] p1) p2 hm with h | h
    · exact hmem1 m h
    · exact List.mem_append_right p1 h
  refine ⟨?_, hmem2, ?_, ?_, ?_, ?_⟩
  · exact locatorIngest_nodup (locatorIngest [] p1) p2
      (locatorIngest_nodup [] p1 (by simp))
  · intro s ⟨m, hm, hid⟩
    have hns : s ≠ "" := by
      obtain ⟨s', hid', hns'⟩ := hs m hm
      rw [hid] at hid'
      exact Option.some.inj hid' ▸ hns'
    rcases List.mem_append.mp hm with h1 | h2
    · obtain ⟨m', hm', hid'⟩ := locatorIngest_id_complete [] p1 m h1 hid hns
      exact ⟨m', locatorIngest_mem_of_store (locatorIngest [] p1) p2 hm', hid'⟩
    · exact locatorIngest_id_complete (locatorIngest [] p1) p2 m h2 hid hns
  · exact fun m hm => locatorIngest_mem_of_store (locatorIngest [] p1) p2 hm
  · intro hall
    rcases hmerged : mergeMessages (locatorIngest [] p1) p2 with _ | ⟨m0, rest⟩
    · have : locatorIngest (locatorIngest [] p1) p2 = [] := by
        rw [locatorIngest, hmerged, sortStore]
      rw [this]
      exact List.Pairwise.nil
    · have hm0 : m0 ∈ p1 ++ p2 := by
        have : m0 ∈ mergeMessages (locatorIngest [] p1) p2 := by
          rw [hmerged]; exact List.mem_cons_self m0 rest
        rcases mergeMessages_mem p2 (locatorIngest [] p1) this with h | h
        · exact hmem1 m0 h
        · exact List.mem_append_right p1 h
      have : locatorIngest (locatorIngest [] p1) p2 = sortStore (m0 :: rest) := by
        rw [locatorIngest, hmerged]
      rw [this]
      exact sortStore_sorted_created m0 rest (hall m0 hm0)
  · intro hnone hrank
    rcases hmerged : mergeMessages (locatorIngest [] p1) p2 with _ | ⟨m0, rest⟩
    · have : locatorIngest (locatorIngest [] p1) p2 = [] := by
        rw [locatorIngest, hmerged, sortStore]
      rw [this]
      exact List.Pairwise.nil
    · have hm0 : m0 ∈ p1 ++ p2 := by
        have : m0 ∈ mergeMessages (locatorIngest [] p1) p2 := by
          rw [hmerged]; exact List.mem_cons_self m0 rest
        rcases mergeMessages_mem p2 (locatorIngest [] p1) this with h | h
        · exact hmem1 m0 h
        · exact List.mem_append_right p1 h
      have : locatorIngest (locatorIngest [] p1) p2 = sortStore (m0 :: rest) := by
        rw [locatorIngest, hmerged]
      rw [this]
      exact sortStore_sorted_rank m0 rest (by simp [hnone m0 hm0]) (hrank m0 hm0)

/-- Claim C5 witness: overlapping pages `[a@3, b@1]` and `[b@1, c@2]`
accumulate, across two attempts, to the unique, time-ordered union. -/
theorem locator_store_union_properties_witness :
    (((locatorIngest (locatorIngest []
        [⟨some "a", some 3, none, none, none⟩, ⟨some "b", some 1, none, none, none⟩])
        [⟨some "b", some 1, none, none, none⟩,
         ⟨some "c", some 2, none, none, none⟩]).map Message.sId).Nodup) ∧
    ((locatorIngest (locatorIngest []
        [⟨some "a", some 3, none, none, none⟩, ⟨some "b", some 1, none, none, none⟩])
        [⟨some "b", some 1, none, none, none⟩,
         ⟨some "c", some 2, none, none, none⟩]).Pairwise
      (fun a b => a.created.getD 0 ≤ b.created.getD 0)) := by
  have h := locator_store_union_properties
    [⟨some "a", some 3, none, none, none⟩, ⟨some "b", some 1, none, none, none⟩]
    [⟨some "b", some 1, none, none, none⟩, ⟨some "c", some 2, none, none, none⟩]
    (by intro m hm; fin_cases hm <;> exact ⟨_, rfl, by decide⟩)
  exact ⟨h.1, h.2.2.2.2.1 (by intro m hm; fin_cases hm <;> rfl)⟩

/-! Session lifecycle and configuration validation. -/

/-- Claim C8 counterexample: one complete `dust_systems_thinking` call
that creates conversation "conv_1" (and, in the real call, then sends a
message) leaves `LAST_MESSAGE_ID` at `none`: the send never mutates it,
because no assignment to `LAST_MESSAGE_ID` (or
`config.last_message_id`) exists anywhere in the code. -/
theorem session_last_message_counterexample :
    dustToolSessionStep initialSession true (some "conv_1") =
      ⟨some "conv_1", none⟩ ∧ initialSession.lastMessageId = none := by decide

/-- Claim C8 as amended: conversation_id and last_message_id both start
empty at process start; conversation_id is set by the Initiator whenever
the caller requests a new conversation or no truthy conversation id is
held, and is reused (left unchanged) when the caller requests
continuation of an existing conversation; last_message_id is never
mutated — no send updates it. -/
theorem session_lifecycle :
    initialSession = ⟨none, none⟩ ∧
    (∀ (st : Session) (nc : Bool) (out : Option String),
      (dustToolSessionStep st nc out).lastMessageId = st.lastMessageId) ∧
    (∀ (st : Session) (cid : String),
      (dustToolSessionStep st true (some cid)).conversationId = some cid) ∧
    (∀ (st : Session) (nc : Bool) (cid : String),
      truthyEnv st.conversationId = false →
      (dustToolSessionStep st nc (some cid)).conversationId = some cid) ∧
    (∀ (st : Session) (out : Option String),
      truthyEnv st.conversationId = true →
      dustToolSessionStep st false out = st) := by
  refine ⟨rfl, ?_, ?_, ?_, ?_⟩
  · intro st nc out
    unfold dustToolSessionStep
    by_cases h : (nc || !truthyEnv st.conversationId) = true
    · rw [if_pos h]
      rcases out with _ | cid
      · rfl
      · rfl
    · rw [if_neg h]
  · intro st cid
    unfold dustToolSessionStep
    rw [if_pos (by simp)]
  · intro st nc cid h
    unfold dustToolSessionStep
    rw [if_pos (by simp [h])]
  · intro st out h
    unfold dustToolSessionStep
    rw [if_neg (by simp [h])]

/-- Claim C8 (amended) witness: a fresh session has no truthy
conversation id, so the first call installs "conv_1"; a held id "conv_1"
is reused on continuation; and the step leaves last_message_id
untouched. -/
theorem session_lifecycle_witness :
    initialSession = ⟨none, none⟩ ∧
    (dustToolSessionStep initialSession false (some "conv_1")).conversationId =
      some "conv_1" ∧
    dustToolSessionStep ⟨some "conv_1", none⟩ false (some "conv_2") =
      ⟨some "conv_1", none⟩ ∧
    (dustToolSessionStep ⟨some "conv_1", none⟩ false (some "conv_2")).lastMessageId =
      (⟨some "conv_1", none⟩ : Session).lastMessageId :=
  ⟨session_lifecycle.1,
    session_lifecycle.2.2.2.1 initialSession false "conv_1" (by decide),
    session_lifecycle.2.2.2.2 ⟨some "conv_1", none⟩ (some "conv_2") (by decide),
    session_lifecycle.2.1 ⟨some "conv_1", none⟩ false (some "conv_2")⟩

/-- Claim C9: a configuration with an empty or placeholder auth token,
or an absent workspace or agent id, fails validation with a message
naming the missing environment variable; and the server tool's
environment check rejects any call with a missing variable before the
remainder of the tool body runs, performing zero HTTP requests. -/
theorem config_validation_failure :
    (∀ (k w a : String), k = "" ∨ k = "store SECRETS in .env file" →
      validate k w a = (false, "Missing DUST_API_KEY environment variable")) ∧
    (∀ (k w a : String), k ≠ "" → k ≠ "store SECRETS in .env file" → w = "" →
      validate k w a = (false, "Missing DUST_WORKSPACE_ID environment variable")) ∧
    (∀ (k w a : String), k ≠ "" → k ≠ "store SECRETS in .env file" → w ≠ "" → a = "" →
      validate k w a = (false, "Missing DUST_AGENT_ID environment variable")) ∧
    (∀ (k w a : Option String) (rest : PyResult × Nat),
      truthyEnv k = false ∨ truthyEnv w = false ∨ truthyEnv a = false →
      dust_systems_thinking_gate k w a rest =
        (.err "Missing required environment variables: DUST_API_KEY, DUST_WORKSPACE_ID, or DUST_AGENT_ID",
          0)) := by
  refine ⟨?_, ?_, ?_, ?_⟩
  · intro k w a h
    rcases h with rfl | rfl
    · rfl
    · simp [validate]
  · intro k w a hk1 hk2 hw
    subst hw
    simp [validate, hk1, hk2]
  · intro k w a hk1 hk2 hw ha
    subst ha
    simp [validate, hk1, hk2, hw]
  · intro k w a rest h
    rcases h with h | h | h <;>
      simp [dust_systems_thinking_gate, dustToolEnvGate, h]

/-- Claim C9 witness: the default (placeholder) token fails validation
naming DUST_API_KEY; an empty workspace id fails naming
DUST_WORKSPACE_ID; and a call with no token in the environment returns
the gate error with zero requests, whatever the rest of the tool would
have done. -/
theorem config_validation_failure_witness :
    validate "store SECRETS in .env file" "11453f1c9e" "8x9nuWdMnR" =
      (false, "Missing DUST_API_KEY environment variable") ∧
    validate "sk-token" "" "8x9nuWdMnR" =
      (false, "Missing DUST_WORKSPACE_ID environment variable") ∧
    validate "sk-token" "11453f1c9e" "" =
      (false, "Missing DUST_AGENT_ID environment variable") ∧
    dust_systems_thinking_gate none (some "11453f1c9e") (some "8x9nuWdMnR")
        (.ok (some "answer"), 4) =
      (.err "Missing required environment variables: DUST_API_KEY, DUST_WORKSPACE_ID, or DUST_AGENT_ID",
        0) :=
  ⟨config_validation_failure.1 "store SECRETS in .env file" "11453f1c9e" "8x9nuWdMnR"
      (Or.inr rfl),
    config_validation_failure.2.1 "sk-token" "" "8x9nuWdMnR"
      (by decide) (by decide) rfl,
    config_validation_failure.2.2.1 "sk-token" "11453f1c9e" ""
      (by decide) (by decide) (by decide) rfl,
    config_validation_failure.2.2.2 none (some "11453f1c9e") (some "8x9nuWdMnR")
      (.ok (some "answer"), 4) (Or.inl rfl)⟩

end DustSpec
